import Mathlib

/-!
Shallow embedding of the Mockr mock-HTTP-server repository
(`cmd/mockr/main.go`, `internal/config/config.go`, `internal/server/server.go`)
and proofs about its route validation, request pipeline, rate limiter,
hot-reload and debounced file watcher.

Conventions of the embedding:
* Go `int` becomes `Int`, byte counts become `Nat`, wall-clock instants
  become `ℚ` (seconds) for the rate limiter and `ℕ` (milliseconds) for the
  watcher timeline.
* File-system effects (stat / symlink resolution / read / JSON parse) are
  abstracted as explicit inputs; fallible operations return `Except`.
* A Go panic (e.g. `http.ServeMux.Handle` on a duplicate pattern) is
  modelled as an `Except.error`: no further serving state exists.
-/

namespace Mockr

/-- `Route` from `internal/config/config.go` / `internal/server/server.go`
(the two declarations are field-for-field identical and `main.go` converts
between them by copying every field).  The `Response` field is Go
`interface{}`, an opaque JSON-serializable value; it is carried around
untouched, so it is modelled as an opaque `String`. -/
structure Route where
  Method : String
  Status : Int
  Delay : Int
  Response : String
deriving DecidableEq

/-- `ValidationResult` from `internal/config/config.go`.  Go's
`map[string]Route` is modelled as an association list (Go map iteration
order is unspecified; every statement proved below is order-independent). -/
structure ValidationResult where
  ValidRoutes : List (String × Route)
  SkippedCount : Nat
deriving DecidableEq

/-- The allowed-method list from `isValidMethod` in `config.go` (the same
set appears in the `switch` of `registerRoutes` in `server.go`). -/
def validMethods : List String :=
  ["GET", "POST", "PUT", "DELETE", "PATCH", "HEAD", "OPTIONS"]

/-- Character-wise uppercasing, Go's `strings.ToUpper` as it behaves on
the ASCII method names compared against `validMethods` (`String.toUpper`
itself is defined by well-founded recursion and does not reduce). -/
def upperString (s : String) : String :=
  String.mk (s.data.map Char.toUpper)

/-- `isValidMethod` from `internal/config/config.go`: uppercase the method,
then test membership in the allowed set. -/
def isValidMethod (method : String) : Bool :=
  validMethods.contains (upperString method)

/-- `isValidStatusCode` from `internal/config/config.go`. -/
def isValidStatusCode (status : Int) : Bool :=
  decide (100 ≤ status ∧ status ≤ 599)

/-- `clampDelay` from `internal/config/config.go`. -/
def clampDelay (delay : Int) : Int :=
  if delay < 0 then 0
  else if delay > 30000 then 30000
  else delay

/-- The per-route body of the validation loop in `validateRoutes`
(`config.go`): replace a present-but-invalid status with 200, then clamp
the delay. -/
def normalizeRoute (route : Route) : Route :=
  let route :=
    if route.Status ≠ 0 ∧ isValidStatusCode route.Status = false then
      { route with Status := 200 }
    else route
  { route with Delay := clampDelay route.Delay }

/-- `validateRoutes` from `internal/config/config.go`: drop routes with an
invalid method (counting them), normalize the rest. -/
def validateRoutes : List (String × Route) → ValidationResult
  | [] => { ValidRoutes := [], SkippedCount := 0 }
  | (path, route) :: rest =>
      let tail := validateRoutes rest
      if isValidMethod route.Method then
        { tail with ValidRoutes := (path, normalizeRoute route) :: tail.ValidRoutes }
      else
        { tail with SkippedCount := tail.SkippedCount + 1 }

/-- The possible outcomes of the file-system and parsing steps of
`LoadConfig` (`config.go`): the file may be missing, symlink resolution may
fail, reading may fail, JSON parsing may fail, or parsing yields a raw
route map. -/
inductive LoadInput where
  | missing
  | resolveError
  | readError
  | parseError
  | parsed (routes : List (String × Route))
deriving DecidableEq

/-- `LoadConfig` from `internal/config/config.go`: any I/O or parse
failure is an error; otherwise validate the parsed routes. -/
def LoadConfig : LoadInput → Except String ValidationResult
  | .missing => .error "config file not found"
  | .resolveError => .error "error resolving config file path"
  | .readError => .error "error reading config file"
  | .parseError => .error "error parsing config file"
  | .parsed routes => .ok (validateRoutes routes)

/-- Modelled from the spec: the token bucket of `golang.org/x/time/rate`
used by `Server.SetRateLimit` (`server.go`).  The library itself is an
external dependency, not part of this repository; spec §4.3 describes it:
capacity `burst` tokens, continuous refill at `limit` tokens/second capped
at capacity, one token per admitted request, a rejected request consumes
no token.  Times and token counts are rationals (Go uses `float64`). -/
structure Bucket where
  limit : ℚ
  burst : Int
  tokens : ℚ
  lastTime : ℚ
deriving DecidableEq

/-- `rate.NewLimiter`: a fresh limiter is effectively full (its first
`advance` spans from the zero time, refilling to capacity). -/
def Bucket.new (r : ℚ) (b : Int) : Bucket :=
  { limit := r, burst := b, tokens := (b : ℚ), lastTime := 0 }

/-- Refill step of the token bucket: elapsed time (clamped at 0 for a
non-monotonic clock) times the rate, capped at the burst capacity. -/
def Bucket.advance (b : Bucket) (now : ℚ) : Bucket :=
  let elapsed : ℚ := if now < b.lastTime then 0 else now - b.lastTime
  { b with tokens := min (b.burst : ℚ) (b.tokens + elapsed * b.limit),
           lastTime := now }

/-- `Limiter.Allow`: admit iff one token is available within capacity
(`1 ≤ burst` and one token accumulated); on admission commit the advanced
state minus one token, on rejection leave the limiter state untouched. -/
def Bucket.allow (b : Bucket) (now : ℚ) : Bool × Bucket :=
  let adv := b.advance now
  if 1 ≤ b.burst ∧ 1 ≤ adv.tokens then
    (true, { adv with tokens := adv.tokens - 1 })
  else
    (false, b)

/-- Run a sequence of admission checks at the given instants, returning
how many were admitted together with the final limiter state. -/
def Bucket.allowCount : Bucket → List ℚ → Nat × Bucket
  | b, [] => (0, b)
  | b, t :: ts =>
      let res := b.allow t
      let rest := Bucket.allowCount res.2 ts
      ((if res.1 then 1 else 0) + rest.1, rest.2)

/-- The handlers `registerRoutes` (`server.go`) can bind to a path:
the reserved health handler, a user route handler made by `createHandler`,
or the fall-through `defaultHandler` bound to pattern "/". -/
inductive HandlerSpec where
  | health
  | defaultHandler
  | route (r : Route)
deriving DecidableEq

/-- The pattern table of an `http.ServeMux`, in registration order. -/
abbrev MuxT := List (String × HandlerSpec)

/-- `http.ServeMux.HandleFunc`: registering an already-registered pattern
panics ("multiple registrations"), modelled as an error. -/
def addEntry (m : MuxT) (p : String) (h : HandlerSpec) : Except String MuxT :=
  if (m.lookup p).isSome then .error p else .ok (m ++ [(p, h)])

/-- The user-route loop of `registerRoutes` (`server.go`): register each
configured route whose (uppercased) method is supported, skip the rest. -/
def registerUserRoutes : MuxT → List (String × Route) → Except String MuxT
  | m, [] => .ok m
  | m, (path, route) :: rest =>
      if isValidMethod route.Method then
        match addEntry m path (HandlerSpec.route route) with
        | .error e => .error e
        | .ok m2 => registerUserRoutes m2 rest
      else
        registerUserRoutes m rest

/-- `registerRoutes` from `internal/server/server.go`: a fresh mux with
`/health` first, then the user routes, then the `/` default handler. -/
def registerRoutes (config : List (String × Route)) : Except String MuxT :=
  match addEntry [] "/health" HandlerSpec.health with
  | .error e => .error e
  | .ok m0 =>
      match registerUserRoutes m0 config with
      | .error e => .error e
      | .ok m1 => addEntry m1 "/" HandlerSpec.defaultHandler

/-- An HTTP request as the modelled middleware observes it: method, URL
path, and the length in bytes of the request body. -/
structure Request where
  method : String
  path : String
  bodyLen : Nat
deriving DecidableEq

/-- The JSON documents the server can write.  `healthOk` is the health
body, `notFound` the 404 body echoing path and method, `rateLimited` the
429 body, `tooLarge` the 413 body, `json v` the serialized configured
response of a user route. -/
inductive Body where
  | healthOk
  | notFound (path method : String)
  | rateLimited
  | tooLarge
  | json (value : String)
deriving DecidableEq

/-- An HTTP response: status code and body document. -/
structure Response where
  status : Int
  body : Body
deriving DecidableEq

/-- The status computation of `createHandler` (`server.go`): a configured
status of 0 (absent in JSON) defaults to 200. -/
def responseStatus (route : Route) : Int :=
  if route.Status = 0 then 200 else route.Status

/-- `healthHandler` from `server.go`. -/
def healthHandler (_req : Request) : Response :=
  { status := 200, body := Body.healthOk }

/-- `defaultHandler` from `server.go`: 404 echoing path and method. -/
def defaultHandler (req : Request) : Response :=
  { status := 404, body := Body.notFound req.path req.method }

/-- `createHandler` from `server.go`: sleep the configured delay (which
does not change the response and is not modelled), then write the
configured-or-default status and the serialized response. -/
def createHandler (route : Route) (_req : Request) : Response :=
  { status := responseStatus route, body := Body.json route.Response }

/-- Dispatch an inner handler description. -/
def runInner : HandlerSpec → Request → Response
  | .health => healthHandler
  | .defaultHandler => defaultHandler
  | .route r => createHandler r

/-- The `http.MaxBytesReader` ceiling in `bodyLimitMiddleware`: 1 MiB. -/
def MaxBodyBytes : Nat := 1048576

/-- `bodyLimitMiddleware` from `server.go`: for POST/PUT/PATCH the body is
eagerly drained; a body exceeding 1 MiB aborts with 413 before the next
handler runs. -/
def bodyLimitMiddleware (next : Request → Response) (req : Request) : Response :=
  if (req.method = "POST" ∨ req.method = "PUT" ∨ req.method = "PATCH")
      ∧ MaxBodyBytes < req.bodyLen then
    { status := 413, body := Body.tooLarge }
  else next req

/-- `loggingMiddleware` from `server.go`: records a log line after the
inner chain; it never alters the response, so it is the identity on the
modelled observable behaviour. -/
def loggingMiddleware (next : Request → Response) : Request → Response :=
  next

/-- `rateLimitMiddleware` from `server.go`: skipped entirely when no
limiter is configured; otherwise reject with 429 when `Allow` fails. -/
def rateLimitMiddleware (limiter : Option Bucket) (now : ℚ)
    (next : Request → Response) (req : Request) : Response × Option Bucket :=
  match limiter with
  | none => (next req, none)
  | some b =>
      let res := b.allow now
      if res.1 then (next req, some res.2)
      else ({ status := 429, body := Body.rateLimited }, some res.2)

/-- `http.ServeMux` dispatch restricted to the patterns this server
registers: exact path match first, otherwise the "/" fall-through. -/
def dispatch (m : MuxT) (path : String) : Option HandlerSpec :=
  match m.lookup path with
  | some h => some h
  | none => m.lookup "/"

/-- `Server` from `internal/server/server.go`.  `mux` is the field
`s.mux`, rebuilt by `registerRoutes`; `installed` is the handler captured
in `http.Server.Handler` when `Start` ran (`none` before `Start`);
`limiter` is the optional shared rate limiter. -/
structure Server where
  config : List (String × Route)
  host : String
  port : Int
  mux : MuxT
  installed : Option MuxT
  limiter : Option Bucket
deriving DecidableEq

/-- `server.New`. -/
def Server.new (config : List (String × Route)) (host : String) (port : Int) : Server :=
  { config := config, host := host, port := port, mux := [],
    installed := none, limiter := none }

/-- `Server.SetRateLimit`. -/
def Server.SetRateLimit (s : Server) (requestsPerSecond : ℚ) (burst : Int) : Server :=
  { s with limiter := some (Bucket.new requestsPerSecond burst) }

/-- The rate-limit setup in `main` (`cmd/mockr/main.go` lines 110-113):
the limiter is installed only when `rateLimit > 0`. -/
def Server.mainSetup (s : Server) (rateLimit : ℚ) (burst : Int) : Server :=
  if 0 < rateLimit then s.SetRateLimit rateLimit burst else s

/-- `Server.Start` (`server.go`): build the mux from the current config
and capture it as the `http.Server`'s handler.  A duplicate registration
panic is an error. -/
def Server.Start (s : Server) : Except String Server :=
  match registerRoutes s.config with
  | .error e => .error e
  | .ok m => .ok { s with mux := m, installed := some m }

/-- `Server.ReloadConfig` (`server.go`): store the new config and rebuild
`s.mux` via `registerRoutes`.  The `installed` handler captured by `Start`
is not touched — that is exactly what the source does. -/
def Server.ReloadConfig (s : Server) (newConfig : List (String × Route)) :
    Except String Server :=
  match registerRoutes newConfig with
  | .error e => .error e
  | .ok m => .ok { s with config := newConfig, mux := m }

/-- One request through the middleware pipeline of `registerRoutes`:
`/health` runs logging∘bodyLimit∘health (no rate limit); user routes and
the default handler run rateLimit∘bodyLimit∘logging∘inner. -/
def serveWith (m : MuxT) (limiter : Option Bucket) (now : ℚ) (req : Request) :
    Response × Option Bucket :=
  match dispatch m req.path with
  | none => ({ status := 404, body := Body.notFound req.path req.method }, limiter)
  | some HandlerSpec.health =>
      (loggingMiddleware (bodyLimitMiddleware healthHandler) req, limiter)
  | some h =>
      rateLimitMiddleware limiter now
        (bodyLimitMiddleware (loggingMiddleware (runInner h))) req

/-- Serve one request against the handler captured at `Start` time
(`http.Server.Handler`); `none` when the server was never started. -/
def Server.serve (s : Server) (now : ℚ) (req : Request) :
    Option (Response × Server) :=
  match s.installed with
  | none => none
  | some m =>
      let r := serveWith m s.limiter now req
      some (r.1, { s with limiter := r.2 })

/-- `reloadConfig` from `cmd/mockr/main.go`: reload-time load/validation
failure is logged and the server object is left untouched (last-known-good);
on success the routes are converted field-for-field and applied via
`ReloadConfig`. -/
def reloadConfig (inp : LoadInput) (s : Server) : Except String Server :=
  match LoadConfig inp with
  | .error _ => .ok s
  | .ok vr => s.ReloadConfig vr.ValidRoutes

/-- The states a running server can evolve through after a given state:
reflexivity, a successful `ReloadConfig`, or serving one request. -/
inductive Evolves : Server → Server → Prop where
  | refl (s : Server) : Evolves s s
  | reload (a s s2 : Server) (cfg : List (String × Route)) :
      Evolves a s → s.ReloadConfig cfg = Except.ok s2 → Evolves a s2
  | step (a s s2 : Server) (now : ℚ) (req : Request) (r : Response) :
      Evolves a s → s.serve now req = some (r, s2) → Evolves a s2

/-- The burst capacity of a server's limiter, if one is configured. -/
def limiterBurst (s : Server) : Option Int :=
  s.limiter.map (fun b => b.burst)

/-- The rate limiter admits the request: no limiter configured, or the
configured limiter's `Allow` succeeds at this instant. -/
def rateLimiterAdmits : Option Bucket → ℚ → Prop
  | none, _ => True
  | some b, now => (b.allow now).1 = true

/-- A filesystem notification as `watchConfigFile` (`cmd/mockr/main.go`)
sees it: the instant (milliseconds), whether it is a Write op, and the
filename component of `event.Name`. -/
structure WatchEvent where
  time : Nat
  isWrite : Bool
  name : String
deriving DecidableEq

/-- The watcher's mutable state: the deadline of the single pending
debounce timer, if armed, and the instants at which `reloadConfig` has
been invoked by a fired timer. -/
structure WatchState where
  pending : Option Nat
  reloads : List Nat
deriving DecidableEq

/-- Let the pending debounce timer fire if its deadline has passed: the
`time.AfterFunc` callback invokes `reloadConfig` unconditionally — the
source re-checks nothing when the timer fires. -/
def fireDue (s : WatchState) (now : Nat) : WatchState :=
  match s.pending with
  | some f =>
      if f ≤ now then { pending := none, reloads := s.reloads ++ [f] } else s
  | none => s

/-- One iteration of the event loop of `watchConfigFile` for a received
filesystem event (after letting a due timer fire first).  For a Write
event naming the watched file, the symlink chain is re-resolved *now*
(`res e.time`; `none` models an `EvalSymlinks` failure): on mismatch the
event is ignored (`continue` — note the pending timer is left armed);
on match the pending timer is stopped and re-armed 200 ms out. -/
def handleEvent (pin cfgName : String) (res : Nat → Option String)
    (s : WatchState) (e : WatchEvent) : WatchState :=
  let s := fireDue s e.time
  if e.isWrite ∧ e.name = cfgName then
    if res e.time = some pin then
      { s with pending := some (e.time + 200) }
    else s
  else s

/-- Run the watcher loop of `watchConfigFile` over a time-ordered event
trace starting idle, then let a still-pending timer fire by `endTime`. -/
def watchRun (pin cfgName : String) (res : Nat → Option String)
    (events : List WatchEvent) (endTime : Nat) : WatchState :=
  fireDue (events.foldl (handleEvent pin cfgName res) { pending := none, reloads := [] })
    endTime

/-! ### Concrete instances used by counterexamples and witnesses -/

/-- A GET route to `/ping` with the given configured status. -/
def pingRoute (st : Int) : Route :=
  { Method := "GET", Status := st, Delay := 0, Response := "pong" }

/-- A server started with `/ping` configured to answer status 201. -/
def demoStart : Except String Server :=
  (Server.new [("/ping", pingRoute 201)] "127.0.0.1" 3000).Start

/-- The started server after a successful reload that reconfigures
`/ping` to status 202. -/
def demoReload : Except String Server :=
  match demoStart with
  | .ok s => s.ReloadConfig [("/ping", pingRoute 202)]
  | .error e => .error e

/-- The status served for `GET /ping` after that reload. -/
def demoReloadStatus : Option Int :=
  match demoReload with
  | .ok s => (s.serve 0 { method := "GET", path := "/ping", bodyLen := 0 }).map
      (fun x => x.1.status)
  | .error _ => none

/-- A started server with an empty user configuration and no limiter. -/
def healthSrv : Except String Server :=
  (Server.new [] "127.0.0.1" 3000).Start

/-- A POST to `/health` whose body exceeds the 1 MiB ceiling by one byte. -/
def overPostHealth : Request :=
  { method := "POST", path := "/health", bodyLen := 1048577 }

/-- The response of that server to the oversized POST to `/health`. -/
def healthOversizeResp : Option Response :=
  match healthSrv with
  | .ok s => (s.serve 0 overPostHealth).map (fun x => x.1)
  | .error _ => none

/-- A symlink-resolution history that drifts away from the pinned path
`"conf"` at t = 150 ms. -/
def driftRes : Nat → Option String :=
  fun t => if t < 150 then some "conf" else some "other"

/-- A symlink-resolution history that always matches the pin `"conf"`. -/
def steadyRes : Nat → Option String :=
  fun _ => some "conf"

/-- A POST route used to exercise the rate limiter together with the
body guard. -/
def uploadRoute : Route :=
  { Method := "POST", Status := 200, Delay := 0, Response := "ok" }

/-- A server started as `main` does with `-rate-limit 1 -burst 0`:
`rateLimit > 0` installs a limiter of capacity 0. -/
def limitedSrv : Except String Server :=
  ((Server.new [("/upload", uploadRoute)] "127.0.0.1" 3000).mainSetup 1 0).Start

/-- A POST to the configured `/upload` route with an oversized body. -/
def overPostUpload : Request :=
  { method := "POST", path := "/upload", bodyLen := 1048577 }

/-- The response of the rate-limited server to that oversized POST. -/
def limitedOversizeResp : Option Response :=
  match limitedSrv with
  | .ok s => (s.serve 0 overPostUpload).map (fun x => x.1)
  | .error _ => none

/-- The mux an empty user configuration registers to. -/
def baseMux : MuxT :=
  [("/health", HandlerSpec.health), ("/", HandlerSpec.defaultHandler)]

/-- The started server with empty configuration and no limiter, as a
plain value (equal to the result of `healthSrv`). -/
def baseSrv : Server :=
  { config := [], host := "127.0.0.1", port := 3000, mux := baseMux,
    installed := some baseMux, limiter := none }

/-- The mux that `[("/upload", uploadRoute)]` registers to. -/
def uploadMux : MuxT :=
  [("/health", HandlerSpec.health), ("/upload", HandlerSpec.route uploadRoute),
   ("/", HandlerSpec.defaultHandler)]

/-- A started server with the `/upload` route and no rate limiter. -/
def uploadSrv : Server :=
  { config := [("/upload", uploadRoute)], host := "127.0.0.1", port := 3000,
    mux := uploadMux, installed := some uploadMux, limiter := none }

/-- A started server with the `/upload` route and a rate limiter created
with rate 1 and burst 0, as `main` does for `-rate-limit 1 -burst 0`. -/
def limitedState : Server :=
  { config := [("/upload", uploadRoute)], host := "127.0.0.1", port := 3000,
    mux := uploadMux, installed := some uploadMux,
    limiter := some (Bucket.new 1 0) }

/-- A GET request to an unconfigured path with an empty body. -/
def missReq : Request :=
  { method := "GET", path := "/missing", bodyLen := 0 }

/-- A GET request to `/health` with an empty body. -/
def healthReq : Request :=
  { method := "GET", path := "/health", bodyLen := 0 }

/-- A one-route raw configuration whose status 700 is out of range. -/
def demoRoutes : List (String × Route) :=
  [("/a", { Method := "GET", Status := 700, Delay := 0, Response := "v" })]

/-- The route above after validation replaced its status with 200. -/
def demoFixedRoute : Route :=
  { Method := "GET", Status := 200, Delay := 0, Response := "v" }

/-! ### Validator lemmas -/

/-- Closed form of `validateRoutes`: the kept routes are exactly the
valid-method routes, normalized, and the skip counter counts exactly the
invalid-method routes. -/
theorem validateRoutes_spec (rs : List (String × Route)) :
    (validateRoutes rs).ValidRoutes
        = (rs.filter (fun pr => isValidMethod pr.2.Method)).map
            (fun pr => (pr.1, normalizeRoute pr.2))
      ∧ (validateRoutes rs).SkippedCount
        = rs.countP (fun pr => !isValidMethod pr.2.Method) := by
  induction rs with
  | nil => simp [validateRoutes]
  | cons head tail ih =>
      obtain ⟨p, r⟩ := head
      cases h : isValidMethod r.Method with
      | true =>
          simp [validateRoutes, h, List.filter_cons, List.countP_cons, ih.1, ih.2]
      | false =>
          simp [validateRoutes, h, List.filter_cons, List.countP_cons, ih.1, ih.2]

/-- The effective written status of a validated route, as a function of
the originally configured status. -/
theorem responseStatus_normalize (r : Route) :
    responseStatus (normalizeRoute r)
      = if 100 ≤ r.Status ∧ r.Status ≤ 599 then r.Status else 200 := by
  simp only [normalizeRoute, responseStatus, isValidStatusCode,
    decide_eq_false_iff_not]
  split_ifs <;> simp_all

/-- C8: every route whose uppercased method is outside
GET/POST/PUT/DELETE/PATCH/HEAD/OPTIONS is excluded from the validated
route set (the validated set is exactly the valid-method routes,
normalized), and `SkippedCount` equals exactly the number of
invalid-method routes. -/
theorem C8_validator_skips_invalid_methods (rs : List (String × Route)) :
    (validateRoutes rs).ValidRoutes
        = (rs.filter (fun pr => isValidMethod pr.2.Method)).map
            (fun pr => (pr.1, normalizeRoute pr.2))
      ∧ (validateRoutes rs).SkippedCount
        = rs.countP (fun pr => !isValidMethod pr.2.Method) :=
  validateRoutes_spec rs

/-- C9: for every route kept by the validator, the status written on its
responses (`createHandler`'s `responseStatus`) is the configured status if
it lies in [100,599] and 200 otherwise. -/
theorem C9_effective_status (rs : List (String × Route)) (p : String) (r : Route)
    (h : (p, r) ∈ (validateRoutes rs).ValidRoutes) :
    ∃ r0 : Route, (p, r0) ∈ rs ∧
      responseStatus r
        = if 100 ≤ r0.Status ∧ r0.Status ≤ 599 then r0.Status else 200 := by
  rw [(validateRoutes_spec rs).1] at h
  obtain ⟨pr, hpr, heq⟩ := List.mem_map.1 h
  obtain ⟨hmem, _⟩ := List.mem_filter.1 hpr
  obtain ⟨hp, hr⟩ := Prod.mk.injEq .. ▸ heq
  refine ⟨pr.2, ?_, ?_⟩
  · simpa [← hp] using hmem
  · rw [← hr]; exact responseStatus_normalize pr.2

/-- Witness for C9 at the concrete configuration `demoRoutes` (status 700,
out of range). -/
theorem C9_effective_status_witness :
    ∃ r0 : Route, ("/a", r0) ∈ demoRoutes ∧
      responseStatus demoFixedRoute
        = if 100 ≤ r0.Status ∧ r0.Status ≤ 599 then r0.Status else 200 :=
  C9_effective_status demoRoutes "/a" demoFixedRoute (by decide)

/-! ### Mux table lemmas -/

/-- Looking up the key just consed on succeeds. -/
theorem lookup_cons_self (k : String) (v : HandlerSpec) (l : MuxT) :
    ((k, v) :: l).lookup k = some v := by
  simp [List.lookup]

/-- Looking up a different key skips the head. -/
theorem lookup_cons_ne (k q : String) (v : HandlerSpec) (l : MuxT) (h : q ≠ k) :
    ((k, v) :: l).lookup q = l.lookup q := by
  simp [List.lookup, beq_false_of_ne h]

/-- A successful lookup names an entry of the list. -/
theorem lookup_mem {l : MuxT} {k : String} {v : HandlerSpec}
    (h : l.lookup k = some v) : (k, v) ∈ l := by
  induction l with
  | nil => simp [List.lookup] at h
  | cons hd tl ih =>
      obtain ⟨a, b⟩ := hd
      by_cases hk : k = a
      · subst hk
        rw [lookup_cons_self] at h
        cases h
        exact List.mem_cons_self ..
      · rw [lookup_cons_ne _ _ _ _ hk] at h
        exact List.mem_cons_of_mem _ (ih h)

/-- A failed lookup on the left part of an append falls through. -/
theorem lookup_append_none {l1 : MuxT} {k : String} (l2 : MuxT)
    (h : l1.lookup k = none) : (l1 ++ l2).lookup k = l2.lookup k := by
  induction l1 with
  | nil => simp
  | cons hd tl ih =>
      obtain ⟨a, b⟩ := hd
      by_cases hk : k = a
      · subst hk; rw [lookup_cons_self] at h; cases h
      · rw [lookup_cons_ne _ _ _ _ hk] at h
        rw [List.cons_append, lookup_cons_ne _ _ _ _ hk]
        exact ih h

/-- Inverting a successful `addEntry`: the key was free and the entry is
appended. -/
theorem addEntry_ok {m : MuxT} {p : String} {h : HandlerSpec} {m2 : MuxT}
    (he : addEntry m p h = Except.ok m2) :
    m.lookup p = none ∧ m2 = m ++ [(p, h)] := by
  unfold addEntry at he
  split at he
  · cases he
  · next hcond =>
      cases he
      exact ⟨Option.not_isSome_iff_eq_none.1 (by simpa using hcond), rfl⟩

/-- A successful `registerUserRoutes` only appends user-route entries. -/
theorem registerUserRoutes_shape (cfg : List (String × Route)) :
    ∀ m m2 : MuxT, registerUserRoutes m cfg = Except.ok m2 →
      ∃ ext : MuxT, m2 = m ++ ext
        ∧ ∀ pr ∈ ext, ∃ r : Route, pr.2 = HandlerSpec.route r := by
  induction cfg with
  | nil =>
      intro m m2 h
      cases h
      exact ⟨[], by simp, by simp⟩
  | cons hd tl ih =>
      intro m m2 h
      obtain ⟨p, r⟩ := hd
      unfold registerUserRoutes at h
      split at h
      · split at h
        · cases h
        · next m1 ha =>
            obtain ⟨ext, he, hall⟩ := ih _ _ h
            obtain ⟨_, hm1⟩ := addEntry_ok ha
            refine ⟨(p, HandlerSpec.route r) :: ext, ?_, ?_⟩
            · simp [he, hm1]
            · intro pr hpr
              rcases List.mem_cons.1 hpr with hh | hh
              · exact ⟨r, by simp [hh]⟩
              · exact hall pr hh
      · obtain ⟨ext, he, hall⟩ := ih _ _ h
        exact ⟨ext, he, hall⟩

/-- `registerRoutes` reduced past its always-successful first step. -/
theorem registerRoutes_eq (cfg : List (String × Route)) :
    registerRoutes cfg
      = match registerUserRoutes [("/health", HandlerSpec.health)] cfg with
        | .error e => .error e
        | .ok m1 => addEntry m1 "/" HandlerSpec.defaultHandler := rfl

/-- A mux produced by `registerRoutes` is the `/health` entry, then only
user-route entries none of which is keyed "/", then the "/" default. -/
theorem registerRoutes_shape {cfg : List (String × Route)} {m : MuxT}
    (h : registerRoutes cfg = Except.ok m) :
    ∃ ext : MuxT,
      m = ("/health", HandlerSpec.health) :: (ext ++ [("/", HandlerSpec.defaultHandler)])
      ∧ ((("/health", HandlerSpec.health) :: ext : MuxT).lookup "/" = none)
      ∧ ∀ pr ∈ ext, ∃ r : Route, pr.2 = HandlerSpec.route r := by
  rw [registerRoutes_eq] at h
  cases hu : registerUserRoutes [("/health", HandlerSpec.health)] cfg with
  | error e => rw [hu] at h; cases h
  | ok m1 =>
      rw [hu] at h
      obtain ⟨ext, he, hall⟩ := registerUserRoutes_shape cfg _ _ hu
      obtain ⟨hfree, hm⟩ := addEntry_ok h
      subst he
      exact ⟨ext, by simpa using hm, by simpa using hfree, hall⟩

/-- `/health` always dispatches to the reserved health handler. -/
theorem dispatch_health {cfg : List (String × Route)} {m : MuxT}
    (h : registerRoutes cfg = Except.ok m) :
    dispatch m "/health" = some HandlerSpec.health := by
  obtain ⟨ext, hm, _, _⟩ := registerRoutes_shape h
  subst hm
  simp [dispatch, lookup_cons_self]

/-- Any path other than `/health` dispatches to some non-health handler
(a user route or the "/" default). -/
theorem dispatch_nonhealth {cfg : List (String × Route)} {m : MuxT} {p : String}
    (h : registerRoutes cfg = Except.ok m) (hp : p ≠ "/health") :
    ∃ hs, dispatch m p = some hs ∧ hs ≠ HandlerSpec.health := by
  obtain ⟨ext, hm, hslash, hall⟩ := registerRoutes_shape h
  subst hm
  unfold dispatch
  cases hl : (("/health", HandlerSpec.health)
      :: (ext ++ [("/", HandlerSpec.defaultHandler)]) : MuxT).lookup p with
  | some hs =>
      refine ⟨hs, rfl, ?_⟩
      have hmem := lookup_mem hl
      rcases List.mem_cons.1 hmem with hh | hh
      · cases hh; exact absurd rfl hp
      · rcases List.mem_append.1 hh with hh2 | hh2
        · obtain ⟨r, hr⟩ := hall _ hh2
          have hr2 : hs = HandlerSpec.route r := hr
          simp [hr2]
        · simp only [List.mem_singleton] at hh2
          cases hh2
          simp
  | none =>
      refine ⟨HandlerSpec.defaultHandler, ?_, by simp⟩
      have h1 : (ext : MuxT).lookup "/" = none := by
        rwa [lookup_cons_ne _ _ _ _ (by decide)] at hslash
      rw [lookup_cons_ne _ _ _ _ (by decide),
        lookup_append_none _ h1, lookup_cons_self]

/-! ### Rate limiter lemmas -/

/-- Admission checks never change the configured burst capacity. -/
theorem allow_burst (b : Bucket) (t : ℚ) : ((b.allow t).2).burst = b.burst := by
  by_cases hc : 1 ≤ b.burst ∧ 1 ≤ (b.advance t).tokens
  · simp only [Bucket.allow, if_pos hc]
    rfl
  · simp only [Bucket.allow, if_neg hc]

/-- A rejected request leaves the limiter state completely untouched. -/
theorem allow_reject_state (b : Bucket) (t : ℚ) (h : (b.allow t).1 = false) :
    (b.allow t).2 = b := by
  by_cases hc : 1 ≤ b.burst ∧ 1 ≤ (b.advance t).tokens
  · simp only [Bucket.allow, if_pos hc] at h
    cases h
  · simp only [Bucket.allow, if_neg hc]

/-- With a non-positive burst capacity every admission check fails and
changes nothing. -/
theorem allow_false_of_burst_nonpos (b : Bucket) (t : ℚ) (h : b.burst ≤ 0) :
    b.allow t = (false, b) := by
  have hc : ¬(1 ≤ b.burst ∧ 1 ≤ (b.advance t).tokens) := by
    intro hcc
    exact absurd hcc.1 (by omega)
  simp only [Bucket.allow, if_neg hc]

/-! ### Pipeline lemmas -/

/-- A request dispatched to a non-health handler while the limiter rejects
yields 429 and the limiter is unchanged. -/
theorem serveWith_429 {m : MuxT} {lim : Option Bucket} {now : ℚ} {req : Request}
    {b : Bucket} {hs : HandlerSpec}
    (hd : dispatch m req.path = some hs) (hh : hs ≠ HandlerSpec.health)
    (hb : lim = some b) (hall : (b.allow now).1 = false) :
    serveWith m lim now req = ({ status := 429, body := Body.rateLimited }, some b) := by
  subst hb
  unfold serveWith
  rw [hd]
  have hrej := allow_reject_state b now hall
  cases hs with
  | health => exact absurd rfl hh
  | defaultHandler => simp [rateLimitMiddleware, hall, hrej]
  | route r => simp [rateLimitMiddleware, hall, hrej]

/-- A request whose path dispatches to the reserved health handler and
whose body passes the guard is answered 200 `healthOk`, and the limiter is
never consulted. -/
theorem serveWith_health {m : MuxT} {lim : Option Bucket} {now : ℚ} {req : Request}
    (hd : dispatch m req.path = some HandlerSpec.health)
    (hbody : ¬((req.method = "POST" ∨ req.method = "PUT" ∨ req.method = "PATCH")
        ∧ MaxBodyBytes < req.bodyLen)) :
    serveWith m lim now req = ({ status := 200, body := Body.healthOk }, lim) := by
  unfold serveWith
  rw [hd]
  simp [loggingMiddleware, bodyLimitMiddleware, hbody, healthHandler]

/-- An admitted (or un-rate-limited) POST/PUT/PATCH request with an
oversized body dispatched to any non-health handler is answered 413
`tooLarge` — independently of the handler, so no route-specific response
is produced. -/
theorem serveWith_413 {m : MuxT} {lim : Option Bucket} {now : ℚ} {req : Request}
    {hs : HandlerSpec}
    (hd : dispatch m req.path = some hs) (hh : hs ≠ HandlerSpec.health)
    (hadm : rateLimiterAdmits lim now)
    (hmeth : req.method = "POST" ∨ req.method = "PUT" ∨ req.method = "PATCH")
    (hbig : MaxBodyBytes < req.bodyLen) :
    (serveWith m lim now req).1 = { status := 413, body := Body.tooLarge } := by
  unfold serveWith
  rw [hd]
  have hbody : (req.method = "POST" ∨ req.method = "PUT" ∨ req.method = "PATCH")
      ∧ MaxBodyBytes < req.bodyLen := ⟨hmeth, hbig⟩
  cases hs with
  | health => exact absurd rfl hh
  | defaultHandler =>
      cases lim with
      | none => simp [rateLimitMiddleware, bodyLimitMiddleware, hbody]
      | some b =>
          have hall : (b.allow now).1 = true := hadm
          simp [rateLimitMiddleware, hall, bodyLimitMiddleware, hbody]
  | route r =>
      cases lim with
      | none => simp [rateLimitMiddleware, bodyLimitMiddleware, hbody]
      | some b =>
          have hall : (b.allow now).1 = true := hadm
          simp [rateLimitMiddleware, hall, bodyLimitMiddleware, hbody]

/-- The rate-limit middleware never changes the burst capacity. -/
theorem rateLimitMiddleware_burst (lim : Option Bucket) (now : ℚ)
    (next : Request → Response) (req : Request) :
    ((rateLimitMiddleware lim now next req).2).map (fun b => b.burst)
      = lim.map (fun b => b.burst) := by
  cases lim with
  | none => rfl
  | some b =>
      simp only [rateLimitMiddleware]
      split <;> simp [allow_burst]

/-- The pipeline never changes the limiter's burst capacity. -/
theorem serveWith_limiterBurst (m : MuxT) (lim : Option Bucket) (now : ℚ)
    (req : Request) :
    ((serveWith m lim now req).2).map (fun b => b.burst)
      = lim.map (fun b => b.burst) := by
  unfold serveWith
  cases hd : dispatch m req.path with
  | none => rfl
  | some hs =>
      cases hs with
      | health => rfl
      | defaultHandler => exact rateLimitMiddleware_burst lim now _ req
      | route r => exact rateLimitMiddleware_burst lim now _ req

/-! ### Server state lemmas -/

/-- Inverting a successful `Start`. -/
theorem Start_ok {s s2 : Server} (h : s.Start = Except.ok s2) :
    ∃ m : MuxT, registerRoutes s.config = Except.ok m
      ∧ s2.installed = some m ∧ s2.limiter = s.limiter := by
  unfold Server.Start at h
  split at h
  · cases h
  · next m hm => cases h; exact ⟨m, hm, rfl, rfl⟩

/-- Inverting a successful `ReloadConfig`: the installed handler and the
limiter are untouched. -/
theorem ReloadConfig_ok {s s2 : Server} {cfg : List (String × Route)}
    (h : s.ReloadConfig cfg = Except.ok s2) :
    s2.installed = s.installed ∧ s2.limiter = s.limiter := by
  unfold Server.ReloadConfig at h
  split at h
  · cases h
  · cases h; exact ⟨rfl, rfl⟩

/-- Serving a request changes neither the installed handler nor the
limiter's burst capacity. -/
theorem serve_state {s : Server} {now : ℚ} {req : Request} {r : Response}
    {s2 : Server} (h : s.serve now req = some (r, s2)) :
    s2.installed = s.installed ∧ limiterBurst s2 = limiterBurst s := by
  unfold Server.serve at h
  cases hi : s.installed with
  | none => rw [hi] at h; cases h
  | some m =>
      rw [hi] at h
      cases h
      exact ⟨hi ▸ rfl, by
        simp only [limiterBurst]
        exact serveWith_limiterBurst m s.limiter now req⟩

/-- Along any evolution the installed handler set is the one captured at
`Start` and the limiter's burst capacity is preserved. -/
theorem evolves_invariants {a s : Server} (h : Evolves a s) :
    s.installed = a.installed ∧ limiterBurst s = limiterBurst a := by
  induction h with
  | refl => exact ⟨rfl, rfl⟩
  | reload s s2 cfg hev hr ih =>
      obtain ⟨h1, h2⟩ := ReloadConfig_ok hr
      refine ⟨h1.trans ih.1, ?_⟩
      rw [show limiterBurst s2 = limiterBurst s from by simp [limiterBurst, h2]]
      exact ih.2
  | step s s2 now req r hev hs ih =>
      obtain ⟨h1, h2⟩ := serve_state hs
      exact ⟨h1.trans ih.1, h2.trans ih.2⟩

/-- Serving against a started server runs the pipeline on the installed
handler set. -/
theorem serve_eq {s : Server} {m : MuxT} (hsi : s.installed = some m)
    (now : ℚ) (req : Request) :
    s.serve now req
      = some ((serveWith m s.limiter now req).1,
          { s with limiter := (serveWith m s.limiter now req).2 }) := by
  unfold Server.serve
  rw [hsi]

/-- `mainSetup` changes only the limiter. -/
theorem mainSetup_config (s : Server) (rate : ℚ) (burst : Int) :
    (s.mainSetup rate burst).config = s.config := by
  unfold Server.mainSetup Server.SetRateLimit
  split <;> rfl

/-! ### Claims about serving -/

/-- C1: evaluation at the failing input.  A server started with `/ping`
configured to status 201 and then successfully reloaded with `/ping`
configured to status 202 still answers `GET /ping` with 201: `Start`
captures `s.mux` in `http.Server.Handler` once, and `ReloadConfig`
rebuilds `s.mux` without ever reinstalling it, so requests dispatched
after the reload are not served according to the new route set. -/
theorem C1_reload_never_reaches_dispatch :
    demoReloadStatus = some 201 ∧ demoReloadStatus ≠ some 202 := by
  constructor
  · decide
  · decide

/-- C2 counterexample: the body-limit middleware also wraps the reserved
`/health` handler, so a POST to `/health` whose body exceeds 1 MiB is
answered 413, not 200 — refuting "for every request to the path /health
... the response is status 200". -/
theorem C2_counterexample :
    healthOversizeResp = some { status := 413, body := Body.tooLarge }
      ∧ healthOversizeResp ≠ some { status := 200, body := Body.healthOk } := by
  constructor
  · decide
  · decide

/-- C2 (amended): for every request to `/health` that is not a
POST/PUT/PATCH with body over 1 MiB, in every reachable server state
(any registered configuration, any rate-limiter state, after any sequence
of reloads and requests) the response is 200 `healthOk`; the reserved
handler is registered first and bypasses the rate limiter. -/
theorem C2_health_always_ok (cfg : List (String × Route)) (host : String)
    (port : Int) (rate : ℚ) (burst : Int) (s0 s : Server)
    (hstart : ((Server.new cfg host port).mainSetup rate burst).Start = Except.ok s0)
    (hev : Evolves s0 s) (now : ℚ) (req : Request)
    (hpath : req.path = "/health")
    (hbody : ¬((req.method = "POST" ∨ req.method = "PUT" ∨ req.method = "PATCH")
        ∧ MaxBodyBytes < req.bodyLen)) :
    (s.serve now req).map (fun x => x.1)
      = some { status := 200, body := Body.healthOk } := by
  obtain ⟨m, hreg, hinst, _⟩ := Start_ok hstart
  rw [mainSetup_config] at hreg
  have hconf : (Server.new cfg host port).config = cfg := rfl
  rw [hconf] at hreg
  have hsi : s.installed = some m := (evolves_invariants hev).1.trans hinst
  have hd : dispatch m req.path = some HandlerSpec.health := by
    rw [hpath]
    exact dispatch_health hreg
  rw [serve_eq hsi, serveWith_health hd hbody]
  rfl

/-- Witness for C2 (amended): the concrete started server `baseSrv`
answers `GET /health` with 200 `healthOk`. -/
theorem C2_health_always_ok_witness :
    (baseSrv.serve 0 healthReq).map (fun x => x.1)
      = some { status := 200, body := Body.healthOk } :=
  C2_health_always_ok [] "127.0.0.1" 3000 0 0 baseSrv baseSrv rfl
    (Evolves.refl baseSrv) 0 healthReq rfl (by decide)

/-- C4: a reload attempt whose load step fails (missing file, unreadable
file, unresolvable path, or unparsable structure) leaves the server value
completely unchanged and is not fatal — `reloadConfig` in `main.go`
returns before touching the server. -/
theorem C4_failed_reload_keeps_previous_state (inp : LoadInput) (s : Server)
    (e : String) (h : LoadConfig inp = Except.error e) :
    reloadConfig inp s = Except.ok s := by
  unfold reloadConfig
  rw [h]

/-- Witness for C4: a parse failure at reload time keeps the running
`baseSrv` untouched. -/
theorem C4_failed_reload_keeps_previous_state_witness :
    reloadConfig LoadInput.parseError baseSrv = Except.ok baseSrv :=
  C4_failed_reload_keeps_previous_state LoadInput.parseError baseSrv
    "error parsing config file" rfl

/-- C7 counterexample: the rate-limit middleware runs before the body
guard, so with an exhausted limiter (rate 1, burst 0) an oversized POST to
a configured route is answered 429, not 413 — refuting "for every request
with method POST, PUT or PATCH whose body exceeds 1 MiB, the request is
aborted with status 413". -/
theorem C7_counterexample :
    limitedOversizeResp = some { status := 429, body := Body.rateLimited }
      ∧ limitedOversizeResp ≠ some { status := 413, body := Body.tooLarge } := by
  constructor
  · decide
  · decide

/-- C7 (amended): every POST/PUT/PATCH request with body over 1 MiB that
is admitted by the rate limiter (or served with rate limiting disabled)
and matches a configured route is aborted with 413 `tooLarge`; the
response does not depend on the route's configured fields, so no
route-specific response is produced. -/
theorem C7_oversized_body_413 (s : Server) (m : MuxT) (rt : Route) (now : ℚ)
    (req : Request)
    (hm : s.installed = some m)
    (hd : dispatch m req.path = some (HandlerSpec.route rt))
    (hadm : rateLimiterAdmits s.limiter now)
    (hmeth : req.method = "POST" ∨ req.method = "PUT" ∨ req.method = "PATCH")
    (hbig : MaxBodyBytes < req.bodyLen) :
    (s.serve now req).map (fun x => x.1)
      = some { status := 413, body := Body.tooLarge } := by
  rw [serve_eq hm]
  have h413 := serveWith_413 hd (by simp) hadm hmeth hbig
  rw [h413]
  rfl

/-- Witness for C7 (amended): the un-rate-limited `uploadSrv` aborts the
oversized POST to `/upload` with 413. -/
theorem C7_oversized_body_413_witness :
    (uploadSrv.serve 0 overPostUpload).map (fun x => x.1)
      = some { status := 413, body := Body.tooLarge } :=
  C7_oversized_body_413 uploadSrv uploadMux uploadRoute 0 overPostUpload rfl
    (by decide) trivial (by decide) (by decide)

/-- C10: starting as `main` does with `rate-limit = R > 0` and the burst
flag left at its default 0 creates a token bucket of capacity 0, so in
every state reachable from that start every request to any path other
than `/health` (user routes and unmatched paths alike) is rejected with
429 at all times, while `/health` (with a body within the guard's limit)
is still served 200. -/
theorem C10_burst_zero_rejects_everything (cfg : List (String × Route))
    (host : String) (port : Int) (R : ℚ) (s0 s : Server) (hR : 0 < R)
    (hstart : ((Server.new cfg host port).mainSetup R 0).Start = Except.ok s0)
    (hev : Evolves s0 s) (now : ℚ) (req : Request) :
    (req.path ≠ "/health" →
      (s.serve now req).map (fun x => x.1)
        = some { status := 429, body := Body.rateLimited })
    ∧ (req.path = "/health" →
      ¬((req.method = "POST" ∨ req.method = "PUT" ∨ req.method = "PATCH")
          ∧ MaxBodyBytes < req.bodyLen) →
      (s.serve now req).map (fun x => x.1)
        = some { status := 200, body := Body.healthOk }) := by
  obtain ⟨m, hreg, hinst, hlim⟩ := Start_ok hstart
  rw [mainSetup_config] at hreg
  have hconf : (Server.new cfg host port).config = cfg := rfl
  rw [hconf] at hreg
  have hsi : s.installed = some m := (evolves_invariants hev).1.trans hinst
  have hlim0 : ((Server.new cfg host port).mainSetup R 0).limiter
      = some (Bucket.new R 0) := by
    unfold Server.mainSetup
    rw [if_pos hR]
    rfl
  have hburst0 : limiterBurst s0 = some 0 := by
    rw [limiterBurst, hlim, hlim0]
    rfl
  have hburst : limiterBurst s = some 0 := (evolves_invariants hev).2.trans hburst0
  obtain ⟨b, hb, hbb⟩ : ∃ b : Bucket, s.limiter = some b ∧ b.burst = 0 := by
    cases hsl : s.limiter with
    | none => rw [limiterBurst, hsl] at hburst; cases hburst
    | some b =>
        rw [limiterBurst, hsl] at hburst
        exact ⟨b, rfl, by simpa using hburst⟩
  constructor
  · intro hpath
    obtain ⟨hs, hd, hh⟩ := dispatch_nonhealth hreg hpath
    have hall : (b.allow now).1 = false := by
      rw [allow_false_of_burst_nonpos b now (le_of_eq hbb)]
    rw [serve_eq hsi, serveWith_429 hd hh hb hall]
    rfl
  · intro hpath hbody
    have hd : dispatch m req.path = some HandlerSpec.health := by
      rw [hpath]
      exact dispatch_health hreg
    rw [serve_eq hsi, serveWith_health hd hbody]
    rfl

/-- Witness for C10 at the concrete `limitedState` (rate 1, burst 0):
`GET /missing` is rejected 429. -/
theorem C10_burst_zero_rejects_everything_witness :
    (limitedState.serve 0 missReq).map (fun x => x.1)
      = some { status := 429, body := Body.rateLimited } :=
  (C10_burst_zero_rejects_everything [("/upload", uploadRoute)] "127.0.0.1" 3000
    1 limitedState limitedState (by norm_num) rfl
    (Evolves.refl limitedState) 0 missReq).1 (by decide)

/-! ### Token-bucket arithmetic -/

/-- Advancing a limiter to its own `lastTime` refills nothing. -/
theorem advance_same_time (limit : ℚ) (burst : Int) (q t : ℚ)
    (hq : q ≤ (burst : ℚ)) :
    (Bucket.mk limit burst q t).advance t = Bucket.mk limit burst q t := by
  simp only [Bucket.advance]
  rw [if_neg (lt_irrefl t), sub_self, zero_mul, add_zero, min_eq_right hq]

/-- An admission check at the limiter's own `lastTime` with an integer
token count `k ≥ 1` within capacity admits and consumes exactly one
token. -/
theorem allow_same_time_pos (limit : ℚ) (burst : Int) (k : ℕ) (t : ℚ)
    (hb : 1 ≤ burst) (hk1 : 1 ≤ k) (hk : (k : Int) ≤ burst) :
    (Bucket.mk limit burst (k : ℚ) t).allow t
      = (true, Bucket.mk limit burst ((k : ℚ) - 1) t) := by
  have hq : (k : ℚ) ≤ (burst : ℚ) := by exact_mod_cast hk
  have hadv := advance_same_time limit burst (k : ℚ) t hq
  have h1 : (1 : ℚ) ≤ (k : ℚ) := by exact_mod_cast hk1
  simp only [Bucket.allow, hadv]
  rw [if_pos ⟨hb, h1⟩]

/-- An admission check at the limiter's own `lastTime` with zero tokens is
rejected and changes nothing. -/
theorem allow_same_time_zero (limit : ℚ) (burst : Int) (t : ℚ)
    (hb : 0 ≤ burst) :
    (Bucket.mk limit burst 0 t).allow t = (false, Bucket.mk limit burst 0 t) := by
  have hadv := advance_same_time limit burst 0 t (by exact_mod_cast hb)
  simp only [Bucket.allow, hadv]
  rw [if_neg]
  intro hc
  have h2 : (1 : ℚ) ≤ 0 := hc.2
  linarith

/-- Draining an integer token count with `n` simultaneous requests admits
exactly `min n k` of them. -/
theorem allowCount_drain (limit : ℚ) (burst : Int) (hb : 1 ≤ burst) (t : ℚ) :
    ∀ (n k : ℕ), (k : Int) ≤ burst →
      Bucket.allowCount (Bucket.mk limit burst (k : ℚ) t) (List.replicate n t)
        = (min n k, Bucket.mk limit burst ((k - min n k : ℕ) : ℚ) t) := by
  intro n
  induction n with
  | zero => intro k hk; simp [Bucket.allowCount]
  | succ n ih =>
      intro k hk
      rw [List.replicate_succ]
      cases k with
      | zero =>
          have hstep := allow_same_time_zero limit burst t (by omega)
          have ih0 := ih 0 (by omega)
          rw [Nat.cast_zero] at ih0
          simp only [Bucket.allowCount, Nat.cast_zero, hstep, ih0]
          rw [Prod.mk.injEq]
          refine ⟨by simp, ?_⟩
          have hz : 0 - min n 0 = 0 - min (n + 1) 0 := by omega
          rw [hz]
      | succ j =>
          have hstep := allow_same_time_pos limit burst (j + 1) t hb (by omega) hk
          have hcast : ((j + 1 : ℕ) : ℚ) - 1 = (j : ℚ) := by push_cast; ring
          have ihj := ih j (by omega)
          simp only [Bucket.allowCount, hstep, hcast, ihj]
          rw [Prod.mk.injEq]
          refine ⟨by simp; omega, ?_⟩
          have hs : j - min n j = j + 1 - min (n + 1) (j + 1) := by omega
          rw [hs]

/-- Advancing a fresh limiter to a nonnegative instant leaves it full. -/
theorem advance_new (R : ℚ) (B : Int) (hR : 0 ≤ R) (t0 : ℚ) (ht : 0 ≤ t0) :
    (Bucket.new R B).advance t0 = Bucket.mk R B (B : ℚ) t0 := by
  simp only [Bucket.new, Bucket.advance]
  rw [if_neg (not_lt.2 ht), sub_zero,
    min_eq_left (le_add_of_nonneg_right (mul_nonneg ht hR))]

/-- The first admission check on a freshly created limiter of capacity
`B ≥ 1` at a nonnegative instant admits and leaves `B - 1` tokens. -/
theorem allow_new_full (R : ℚ) (B : Int) (hR : 0 ≤ R) (hB : 1 ≤ B) (t0 : ℚ)
    (ht : 0 ≤ t0) :
    (Bucket.new R B).allow t0 = (true, Bucket.mk R B ((B : ℚ) - 1) t0) := by
  have hadv := advance_new R B hR t0 ht
  have h1 : (1 : ℚ) ≤ (B : ℚ) := by exact_mod_cast hB
  simp only [Bucket.allow, hadv]
  rw [if_pos ⟨hB, h1⟩]

/-- After `1/R` more seconds an empty limiter holds exactly one refilled
token. -/
theorem advance_refill (R : ℚ) (B : Int) (hR : 0 < R) (hB : 1 ≤ B) (t0 : ℚ) :
    (Bucket.mk R B 0 t0).advance (t0 + 1 / R) = Bucket.mk R B 1 (t0 + 1 / R) := by
  simp only [Bucket.advance]
  have hnlt : ¬(t0 + 1 / R < t0) := by
    have h1 : 0 < 1 / R := by positivity
    linarith
  have helapsed : t0 + 1 / R - t0 = 1 / R := by ring
  have hmul : 1 / R * R = 1 := by field_simp
  rw [if_neg hnlt, helapsed, zero_add, hmul,
    min_eq_right (by exact_mod_cast hB : (1 : ℚ) ≤ (B : ℚ))]

/-- After `1/R` seconds an empty limiter of capacity `B ≥ 1` admits
exactly one request and is empty again. -/
theorem allow_refill (R : ℚ) (B : Int) (hR : 0 < R) (hB : 1 ≤ B) (t0 : ℚ) :
    (Bucket.mk R B 0 t0).allow (t0 + 1 / R)
      = (true, Bucket.mk R B 0 (t0 + 1 / R)) := by
  have hadv := advance_refill R B hR hB t0
  simp only [Bucket.allow, hadv]
  rw [if_pos ⟨hB, le_refl 1⟩]
  norm_num

/-- C6 counterexample: with rate R = 1 and the default burst B = 0, the
burst of B + 1 = 1 request at t = 0 admits none (consistent with "admits
at most B"), but after waiting 1/R = 1 second the next request is still
rejected — refuting "after waiting 1/R seconds, exactly one more request
becomes admissible", which the claim asserts for every burst B. -/
theorem C6_counterexample :
    ((Bucket.new 1 0).allowCount [(0 : ℚ)]).1 = 0
      ∧ (((Bucket.new 1 0).allowCount [(0 : ℚ)]).2.allow 1).1 = false := by
  constructor
  · decide
  · decide

/-- C6 (amended, requiring burst B ≥ 1): a burst of B + 1 simultaneous
requests on a fresh limiter admits exactly B; a rejected request consumes
no token and the limiter rejects with 429 through the middleware; after
1/R more seconds exactly one more request is admissible (one is admitted,
a second at the same instant is rejected). -/
theorem C6_token_bucket (R : ℚ) (B : ℕ) (t0 : ℚ) (hR : 0 < R) (hB : 1 ≤ B)
    (ht : 0 ≤ t0) :
    (((Bucket.new R (B : Int)).allowCount (List.replicate (B + 1) t0)).1 = B)
    ∧ ((((Bucket.new R (B : Int)).allowCount (List.replicate (B + 1) t0)).2.allow
        (t0 + 1 / R)).1 = true)
    ∧ (((((Bucket.new R (B : Int)).allowCount (List.replicate (B + 1) t0)).2.allow
        (t0 + 1 / R)).2.allow (t0 + 1 / R)).1 = false)
    ∧ (∀ (b : Bucket) (t : ℚ), (b.allow t).1 = false → (b.allow t).2 = b)
    ∧ (∀ (s : Server) (m : MuxT) (hs : HandlerSpec) (now : ℚ) (req : Request)
        (b : Bucket), s.installed = some m → dispatch m req.path = some hs →
        hs ≠ HandlerSpec.health → s.limiter = some b → (b.allow now).1 = false →
        (s.serve now req).map (fun x => x.1)
          = some { status := 429, body := Body.rateLimited }) := by
  have hBI : (1 : Int) ≤ (B : Int) := by exact_mod_cast hB
  have hfirst := allow_new_full R (B : Int) (le_of_lt hR) hBI t0 ht
  have hcast : ((B : Int) : ℚ) - 1 = ((B - 1 : ℕ) : ℚ) := by
    push_cast [hB]
    ring
  have hdrain := allowCount_drain R (B : Int) hBI t0 B (B - 1) (by omega)
  have hcount : (Bucket.new R (B : Int)).allowCount (List.replicate (B + 1) t0)
      = (B, Bucket.mk R (B : Int) 0 t0) := by
    rw [List.replicate_succ]
    simp only [Bucket.allowCount, hfirst]
    rw [hcast, hdrain]
    have hmin : min B (B - 1) = B - 1 := by omega
    rw [hmin, Prod.mk.injEq]
    refine ⟨?_, ?_⟩
    · simp
      omega
    · have hz : B - 1 - (B - 1) = 0 := by omega
      simp [hz]
  refine ⟨by rw [hcount], ?_, ?_, allow_reject_state, ?_⟩
  · rw [hcount]
    rw [allow_refill R (B : Int) hR hBI t0]
  · rw [hcount]
    rw [allow_refill R (B : Int) hR hBI t0]
    rw [allow_same_time_zero R (B : Int) (t0 + 1 / R) (by omega)]
  · intro s m hs now req b hm hd hh hb hall
    rw [serve_eq hm, serveWith_429 hd hh hb hall]
    rfl

/-- Witness for C6 (amended) at R = 1, B = 1, t0 = 0: the burst of two
simultaneous requests admits exactly one. -/
theorem C6_token_bucket_witness :
    ((Bucket.new 1 (1 : Int)).allowCount (List.replicate 2 (0 : ℚ))).1 = 1 :=
  (C6_token_bucket 1 1 0 (by norm_num) (by norm_num) (by norm_num)).1

/-! ### Watcher claims -/

/-- C3 counterexample: `watchConfigFile` re-resolves the symlink chain
when the *event arrives*, not when the debounce timer fires.  With the pin
`"conf"` and a resolution that drifts to `"other"` at t = 150 ms, a
matching write at t = 100 ms arms the timer; the timer fires at t = 300 ms
— when the resolution no longer matches the pin — and the reload is
performed anyway, refuting "when the debounce timer fires the ... chain is
re-resolved and compared ...; if the resolution differs from the pin, the
reload is rejected". -/
theorem C3_counterexample :
    (watchRun "conf" "mockr.json" driftRes
        [{ time := 100, isWrite := true, name := "mockr.json" }] 1000).reloads
      = [300]
    ∧ driftRes 300 ≠ some "conf" := by
  constructor
  · decide
  · decide

/-- C3 (amended): the symlink chain is re-resolved when each matching
write event arrives, before the debounce timer is (re)started; if the
resolution at that moment differs from the pin (or resolution fails), the
event is ignored — it neither arms nor re-arms the timer and triggers no
reload by itself (though a timer armed by an earlier verified event still
fires without a re-check). -/
theorem C3_symlink_check_at_event_time (pin cfgName : String)
    (res : Nat → Option String) (s : WatchState) (e : WatchEvent)
    (hw : e.isWrite = true) (hn : e.name = cfgName)
    (hres : res e.time ≠ some pin) :
    handleEvent pin cfgName res s e = fireDue s e.time := by
  unfold handleEvent
  rw [if_pos ⟨hw, hn⟩, if_neg hres]

/-- Witness for C3 (amended): at t = 300 the drifted resolution differs
from the pin, so the event leaves the idle watcher state unchanged. -/
theorem C3_symlink_check_at_event_time_witness :
    handleEvent "conf" "mockr.json" driftRes { pending := none, reloads := [] }
        { time := 300, isWrite := true, name := "mockr.json" }
      = fireDue { pending := none, reloads := [] } 300 :=
  C3_symlink_check_at_event_time "conf" "mockr.json" driftRes
    { pending := none, reloads := [] }
    { time := 300, isWrite := true, name := "mockr.json" } rfl rfl (by decide)

/-- Inside a burst (each gap under the 200 ms window, resolution matching
the pin throughout), every event just re-arms the timer: no reload is
recorded while the burst lasts. -/
theorem burst_fold (pin cfg : String) (res : Nat → Option String) :
    ∀ (ts : List Nat) (t : Nat),
      List.Chain (fun a b => a ≤ b ∧ b < a + 200) t ts →
      (∀ u ∈ ts, res u = some pin) →
      List.foldl (handleEvent pin cfg res)
          { pending := some (t + 200), reloads := [] }
          (ts.map (fun u => { time := u, isWrite := true, name := cfg }))
        = { pending := some (ts.getLastD t + 200), reloads := [] } := by
  intro ts
  induction ts with
  | nil =>
      intro t _ _
      simp
  | cons u us ih =>
      intro t hchain hres
      rw [List.chain_cons] at hchain
      obtain ⟨⟨htu, hlt⟩, hchain2⟩ := hchain
      have hres_u : res u = some pin := hres u (List.mem_cons_self ..)
      simp only [List.map_cons, List.foldl_cons]
      have hstep : handleEvent pin cfg res
          { pending := some (t + 200), reloads := [] }
          { time := u, isWrite := true, name := cfg }
          = { pending := some (u + 200), reloads := [] } := by
        simp only [handleEvent, fireDue]
        rw [if_neg (by omega : ¬(t + 200 ≤ u))]
        rw [if_pos ⟨trivial, trivial⟩, if_pos hres_u]
      rw [hstep, ih u hchain2 (fun v hv => hres v (List.mem_cons_of_mem _ hv))]
      rw [List.getLastD_cons]

/-- C5: a burst of N ≥ 1 write events naming the watched file, each
arriving while the previous debounce timer is still pending (gap < 200 ms)
and with the symlink resolution matching the pin, produces exactly one
reload attempt, fired 200 ms after the last event of the burst. -/
theorem C5_debounce_coalesces (pin cfg : String) (res : Nat → Option String)
    (t : Nat) (ts : List Nat) (endTime : Nat)
    (hchain : List.Chain (fun a b => a ≤ b ∧ b < a + 200) t ts)
    (hres : ∀ u ∈ t :: ts, res u = some pin)
    (hend : ts.getLastD t + 200 ≤ endTime) :
    watchRun pin cfg res
        ((t :: ts).map (fun u => { time := u, isWrite := true, name := cfg }))
        endTime
      = { pending := none, reloads := [ts.getLastD t + 200] } := by
  unfold watchRun
  simp only [List.map_cons, List.foldl_cons]
  have h0 : handleEvent pin cfg res { pending := none, reloads := [] }
      { time := t, isWrite := true, name := cfg }
      = { pending := some (t + 200), reloads := [] } := by
    simp only [handleEvent, fireDue]
    rw [if_pos ⟨trivial, trivial⟩, if_pos (hres t (List.mem_cons_self ..))]
  rw [h0, burst_fold pin cfg res ts t hchain
    (fun v hv => hres v (List.mem_cons_of_mem _ hv))]
  simp only [fireDue]
  rw [if_pos hend]
  rfl

/-- Witness for C5: two writes at t = 0 and t = 100 ms (gap inside the
200 ms window) yield exactly one reload, at t = 300 ms. -/
theorem C5_debounce_coalesces_witness :
    watchRun "conf" "mockr.json" steadyRes
        (([0, 100] : List Nat).map
          (fun u => { time := u, isWrite := true, name := "mockr.json" }))
        500
      = { pending := none, reloads := [300] } := by
  have h := C5_debounce_coalesces "conf" "mockr.json" steadyRes 0 [100] 500
    (List.Chain.cons (by omega) List.Chain.nil) (by decide) (by decide)
  simpa using h

end Mockr
